import Mathlib

/-!
Verification of the agent execution engine of the `go-agent` repository.

The definitions below are a shallow embedding of the Go sources:
  * `pkg/goagent/llm/llm_tool.go` and the `llm` message types
    (`LLMMessage`, `LLMToolCall`, `LLMToolResult`, `LLMTool`),
  * `pkg/goagent/agent/prompt.go` (`Prompt`, `Prompt.Render`, backed by the
    fragment of Go `text/template` the repository uses: literal text and
    `.key` placeholder actions, with the default `missingkey` behaviour of
    printing `<no value>` for a key absent from a `map[string]any` context),
  * `pkg/goagent/agent/agent.go` (`Agent`, `GetToolLimit`, `callTools`,
    `createSystemPrompt`, `createInitState`, `createResult`, `Run`),
  * `pkg/goagent/llm/llm.go` (`CallWithStructuredOutput`).

Go `error` values built with `fmt.Errorf` are modelled by `GoError`, which
records the list of sentinel error kinds reachable by `errors.Is`:
`%w` wrapping prepends a kind and keeps the wrapped chain, while formatting a
cause with `%s` flattens it to text and keeps only the new sentinel.

The unbounded `for` loop of `Run` is modelled with an explicit fuel
parameter; exhausting the fuel yields the distinguished outcome
`RunOut.diverged`.  Besides the result of the run, the model records a
trace of snapshots of the conversation state and of the usage ledger taken
after every mutation `Run` performs, so that invariants that the
specification states about every point of a run can be expressed.
-/

set_option autoImplicit false
set_option maxRecDepth 100000
set_option maxHeartbeats 1000000

namespace GoAgent

/-- Role of a message, mirroring `llm.LLMMessageType`. -/
inductive LLMMessageType where
  | user
  | assistant
  | system
deriving DecidableEq, Repr

/-- Mirrors `llm.LLMToolCall`: `ID`, `ToolName`, `Args` (an encoded payload). -/
structure LLMToolCall where
  ID : String
  ToolName : String
  Args : String
deriving DecidableEq, Repr

/-- Mirrors the `llm.LLMToolResult` interface: a correlation `ID` (the
`GetID()` capability) together with an opaque tool-specific payload. -/
structure LLMToolResult where
  ID : String
  payload : String
deriving DecidableEq, Repr

/-- Mirrors `llm.LLMMessage`.  The Go field `End` is called `endTurn` here
because `end` is a Lean keyword.  Go distinguishes a `nil` slice from an
empty one in `llmMessage.ToolCalls != nil`; both behave identically in
`Run` (dispatching zero calls is a no-op), so both are modelled by `[]`. -/
structure LLMMessage where
  type : LLMMessageType
  Content : String
  ToolCalls : List LLMToolCall := []
  ToolResults : List LLMToolResult := []
  endTurn : Bool := false
deriving DecidableEq, Repr

/-- Mirrors `llm.NewLLMMessage`. -/
def NewLLMMessage (msgType : LLMMessageType) (content : String) : LLMMessage :=
  { type := msgType, Content := content }

/-- The sentinel error values of the repository (`agent.ErrLimitReached`,
`agent.ErrToolError`, ..., `llm.ErrStructuredOutput`), plus kinds for the
errors produced by the external collaborators (template parsing,
JSON decoding). -/
inductive ErrKind where
  | limitReached
  | toolError
  | llmCall
  | finish
  | toolNotFound
  | invalidResultSchema
  | cannotCreateSchema
  | emptySystemPrompt
  | structuredOutput
  | invalidArguments
  | templateParse
  | jsonDecode
  | other
deriving DecidableEq, Repr

/-- A Go `error` value, abstracted to the list of sentinel kinds that
`errors.Is` reports for it (head = outermost wrap). -/
structure GoError where
  kinds : List ErrKind
deriving DecidableEq, Repr

/-- A bare sentinel error, e.g. `ErrLimitReached` itself. -/
def GoError.base (k : ErrKind) : GoError := ⟨[k]⟩

/-- `fmt.Errorf("%w: %w", sentinel, cause)`: the new sentinel is prepended
and the cause stays in the `errors.Is` chain. -/
def GoError.wrapW (k : ErrKind) (e : GoError) : GoError := ⟨k :: e.kinds⟩

/-- `fmt.Errorf("%w: %s", sentinel, cause)`: the cause is flattened to text,
so only the new sentinel remains in the `errors.Is` chain. -/
def GoError.wrapS (k : ErrKind) (_e : GoError) : GoError := ⟨[k]⟩

/-- `errors.Is(e, sentinel)`. -/
def errorsIs (e : GoError) (k : ErrKind) : Prop := k ∈ e.kinds

instance (e : GoError) (k : ErrKind) : Decidable (errorsIs e k) := by
  unfold errorsIs; infer_instance

instance {α β : Type} [DecidableEq α] [DecidableEq β] :
    DecidableEq (Except α β) := fun x y =>
  match x, y with
  | Except.error a, Except.error b =>
    if h : a = b then Decidable.isTrue (congrArg Except.error h)
    else Decidable.isFalse (fun hc => h (Except.error.inj hc))
  | Except.error _, Except.ok _ =>
    Decidable.isFalse (fun hc => Except.noConfusion hc)
  | Except.ok _, Except.error _ =>
    Decidable.isFalse (fun hc => Except.noConfusion hc)
  | Except.ok a, Except.ok b =>
    if h : a = b then Decidable.isTrue (congrArg Except.ok h)
    else Decidable.isFalse (fun hc => h (Except.ok.inj hc))

/-- One parsed piece of a `text/template` template: literal text or a
`.key` placeholder action. -/
inductive Seg where
  | lit (s : String)
  | var (k : String)
deriving DecidableEq, Repr

/-- Parser for the fragment of Go `text/template` syntax the repository's
templates use: literal text and actions of the shape `.key` between double
braces.  Any other action form is a parse error (mirroring that
`template.Parse` rejects what it cannot parse; the repository's templates
contain only such actions).  The boolean state is `true` while scanning the
key of an action, with the accumulator holding the key's characters in
reverse. -/
def parseSegsAux : Bool → List Char → List Char → Option (List Seg)
  | false, _, [] => some []
  | true, _, [] => none
  | false, _, '\x7b' :: '\x7b' :: '.' :: rest => parseSegsAux true [] rest
  | false, _, '\x7b' :: '\x7b' :: _ => none
  | false, acc, c :: rest =>
      (parseSegsAux false acc rest).map (fun segs => Seg.lit (String.mk [c]) :: segs)
  | true, acc, '\x7d' :: '\x7d' :: rest =>
      (parseSegsAux false [] rest).map
        (fun segs => Seg.var (String.mk acc.reverse) :: segs)
  | true, acc, c :: rest => parseSegsAux true (c :: acc) rest

/-- Entry point of the template parser. -/
def parseAux (cs : List Char) : Option (List Seg) :=
  parseSegsAux false [] cs

/-- The text a segment contributes under a context: literal text verbatim, a
bound placeholder its value, and an unbound placeholder the text
`<no value>` — the default `missingkey` behaviour of Go `text/template`
on a `map[string]any` context. -/
def segValue (args : List (String × String)) : Seg → String
  | Seg.lit s => s
  | Seg.var k =>
    match args.lookup k with
    | some v => v
    | none => ("<no value>")

/-- Executes a parsed template against a context. -/
def renderSegs (args : List (String × String)) (segs : List Seg) : String :=
  String.join (segs.map (segValue args))

/-- Mirrors `agent.Prompt`. -/
structure Prompt where
  Template : String
deriving DecidableEq, Repr

/-- Mirrors `agent.NewPrompt`. -/
def NewPrompt (template : String) : Prompt := ⟨template⟩

/-- Mirrors `Prompt.Render`: parse the template, then execute it against the
context.  Parsing a malformed template is an error; execution of the
supported fragment never fails (an unbound key renders as `<no value>`). -/
def Prompt.Render (p : Prompt) (args : List (String × String)) :
    Except GoError String :=
  match parseAux p.Template.data with
  | none => Except.error (GoError.base ErrKind.templateParse)
  | some segs => Except.ok (renderSegs args segs)

/-- Mirrors `llm.LLMTool`: name, description, parameter schema (an opaque
schema object, modelled by its JSON serialization) and the invocation
function `Call(id, args) → (LLMToolResult, error)`. -/
structure LLMTool where
  Name : String
  ParametersSchema : String
  Description : String
  Call : String → String → Except GoError LLMToolResult

/-- Mirrors `agent.Agent[T]` (the fields the execution loop reads): the Go
maps `tools` and `limits` are modelled as association lists. -/
structure Agent where
  name : String
  tools : List (String × LLMTool)
  limits : List (String × Int)
  defaultToolLimit : Int
  systemPrompt : Prompt
  behavior : String

/-- Mirrors `Agent.GetToolLimit`: the explicit limit if configured, else the
default. -/
def Agent.GetToolLimit (a : Agent) (name : String) : Int :=
  match a.limits.lookup name with
  | some limit => limit
  | none => a.defaultToolLimit

/-- The usage ledger, mirroring the Go `map[string]int` created afresh by
every `Run`.  A name absent from the list has count `0`, like a missing key
of a Go map. -/
abbrev UsageMap := List (String × Int)

/-- Reading `usage[name]`: `0` for a missing key. -/
def usageGet (u : UsageMap) (name : String) : Int :=
  (u.lookup name).getD 0

/-- `usage[name]++`: the entry shadows any older binding for the same key.
Go maps are unordered, so the representation order carries no meaning. -/
def usageBump (u : UsageMap) (name : String) : UsageMap :=
  (name, usageGet u name + 1) :: u

/-- Modelled `json.Marshal` of a string (the repository's keys and values
contain no characters needing escapes). -/
def jsonString (s : String) : String := ("\"") ++ s ++ ("\"")

/-- Modelled `json.Marshal` of a JSON object given serialized fields. -/
def jsonObj (fields : List (String × String)) : String :=
  ("\x7b") ++ String.intercalate (",") (fields.map (fun p => jsonString p.1 ++ (":") ++ p.2)) ++ ("\x7d")

/-- The distinct keys of an association list, sorted, mirroring that
`json.Marshal` serializes Go map keys in sorted order. -/
def sortedKeys (u : List (String × Int)) : List String :=
  ((u.map Prod.fst).eraseDups).insertionSort (fun x y => x ≤ y)

/-- Modelled `json.Marshal` of a `map[string]int` (usage and limits). -/
def kvJSON (u : List (String × Int)) : String :=
  jsonObj ((sortedKeys u).map (fun k => (k, toString (usageGet u k))))

/-- Modelled `json.Marshal` of one `llm.LLMTool` (the `Call` field carries
the tag `json:"-"` and is omitted; struct fields serialize in order). -/
def toolJSON (t : LLMTool) : String :=
  jsonObj [(("name"), jsonString t.Name),
           (("parameters_schema"), t.ParametersSchema),
           (("description"), jsonString t.Description)]

/-- Modelled `json.Marshal` of the `map[string]llm.LLMTool` of an agent. -/
def toolsJSON (tools : List (String × LLMTool)) : String :=
  jsonObj ((((tools.map Prod.fst).eraseDups).insertionSort (fun x y => x ≤ y)).map
    (fun k => (k, (tools.lookup k).elim ("null") toolJSON)))

/-- Mirrors `Agent.createSystemPrompt`: serialize tools, usage and limits to
JSON and render the agent's system prompt template against them. -/
def createSystemPrompt (a : Agent) (usage : UsageMap) : Except GoError String :=
  a.systemPrompt.Render
    [(("tools"), toolsJSON a.tools),
     (("tools_usage"), kvJSON usage),
     (("calling_limits"), kvJSON a.limits),
     (("behavior"), a.behavior)]

/-- Mirrors `Agent.createInitState`.  The caller's input is passed already
serialized (`json.Marshal(input)`; marshalling the values the repository
feeds it cannot fail).  An empty rendered system prompt is the error
`ErrEmptySystemPrompt`. -/
def createInitState (a : Agent) (inputJSON : String) :
    Except GoError (List LLMMessage) :=
  match createSystemPrompt a [] with
  | Except.error e => Except.error e
  | Except.ok sp =>
    if sp = ("") then Except.error (GoError.base ErrKind.emptySystemPrompt)
    else Except.ok [NewLLMMessage LLMMessageType.system sp,
                    NewLLMMessage LLMMessageType.user inputJSON]

/-- The recursion of `Agent.callTools` over `llmMessage.ToolCalls`, with the
mutable Go locals made explicit: `u` is the shared usage map (whose
increments persist in the caller even when an error is returned) and `acc`
the `results` slice accumulated so far.  On any error the collected results
are discarded (`return nil, err` in Go), but the usage map keeps the
increments of the calls already dispatched. -/
def callToolsLoop (a : Agent) :
    List LLMToolCall → UsageMap → List LLMToolResult →
    UsageMap × Except GoError (List LLMToolResult)
  | [], u, acc => (u, Except.ok acc)
  | c :: rest, u, acc =>
    match a.tools.lookup c.ToolName with
    | none => (u, Except.error (GoError.wrapS ErrKind.toolNotFound (GoError.base ErrKind.other)))
    | some tool =>
      if a.GetToolLimit c.ToolName ≤ usageGet u c.ToolName then
        (u, Except.error (GoError.base ErrKind.limitReached))
      else
        match tool.Call c.ID c.Args with
        | Except.error e => (u, Except.error (GoError.wrapS ErrKind.toolError e))
        | Except.ok r => callToolsLoop a rest (usageBump u c.ToolName) (acc ++ [r])

/-- Mirrors `Agent.callTools(llmMessage, usage)`. -/
def callTools (a : Agent) (llmMessage : LLMMessage) (usage : UsageMap) :
    UsageMap × Except GoError (List LLMToolResult) :=
  callToolsLoop a llmMessage.ToolCalls usage []

/-- The LLM gateway interface of `llm.LLM`: `Call` and
`CallWithStructuredOutput` (the latter returning the raw response text). -/
structure LLMGateway where
  call : List LLMMessage → Except GoError LLMMessage
  callStructured : List LLMMessage → Except GoError String

/-- Mirrors the generic function `llm.CallWithStructuredOutput[T]`:
call the gateway, then decode the returned text into `T` (`decode` models
`json.Unmarshal` into the caller's result type); either failure is wrapped
with `ErrStructuredOutput` by `%w: %w`. -/
def CallWithStructuredOutput {T : Type} (g : LLMGateway)
    (decode : String → Except GoError T) (msgs : List LLMMessage) :
    Except GoError T :=
  match g.callStructured msgs with
  | Except.error e => Except.error (GoError.wrapW ErrKind.structuredOutput e)
  | Except.ok output =>
    match decode output with
    | Except.error e => Except.error (GoError.wrapW ErrKind.structuredOutput e)
    | Except.ok t => Except.ok t

/-- The package-level `systemPromptTemplate` of `agent.go` (braces of the
template actions are written with hex escapes). -/
def systemPromptTemplate : Prompt :=
  NewPrompt (("You are an agent that implements the ReAct ") ++
    ("(Reasoning-Action-Observation) pattern to solve tasks through systematic thinking and tool usage.\n\n") ++
    ("## REASONING PROTOCOL\n\nBefore EVERY action:\n") ++
    ("1. **THINK**: State your reasoning for the next step\n") ++
    ("2. **ACT**: Execute the appropriate tool with complete parameters\n") ++
    ("3. **OBSERVE**: Analyze the results and their implications\n\n") ++
    ("Always maintain explicit reasoning chains. Your thoughts should be visible and logical.\n\n") ++
    ("## EXECUTION CONTEXT\n\nTOOLS AVAILABLE TO USE:\n\x7b\x7b.tools\x7d\x7d\n\n") ++
    ("CURRENT TOOLS USAGE:\n\x7b\x7b.tools_usage\x7d\x7d\n\n") ++
    ("TOOLS USAGE LIMITS:\n\x7b\x7b.calling_limits\x7d\x7d\n\n") ++
    ("## AGENT BEHAVIOR\n\n<BEHAVIOR>\n\x7b\x7b.behavior\x7d\x7d\n</BEHAVIOR>\n"))

/-- The package-level `outputPromptTemplate` of `agent.go` (no actions). -/
def outputPromptTemplate : Prompt :=
  NewPrompt (("Based on the entire conversation above, provide your final output.\n\n") ++
    ("Requirements:\n- Synthesize all findings from your reasoning and observations\n") ++
    ("- Structure the output according to the required schema\n") ++
    ("- Include only factual information gathered during your analysis\n") ++
    ("- Ensure all required fields are populated with relevant data\n") ++
    ("- Output ONLY the JSON object with no additional text"))

/-- Mirrors `agent.AgentResult[T]`: the decoded structured result (absent on
the limit-reached outcome) and the conversation history. -/
structure AgentResult (T : Type) where
  Data : Option T
  Messages : List LLMMessage
deriving DecidableEq, Repr

/-- The outcome of `Run`, mirroring the Go return pair
`(*AgentResult[T], error)`; `diverged` marks exhaustion of the loop fuel. -/
inductive RunOut (T : Type) where
  | diverged
  | done (res : Option (AgentResult T)) (err : Option GoError)
deriving DecidableEq, Repr

/-- The result component of an outcome. -/
def RunOut.resultOf {T : Type} : RunOut T → Option (AgentResult T)
  | RunOut.diverged => none
  | RunOut.done res _ => res

/-- The error component of an outcome. -/
def RunOut.errorOf {T : Type} : RunOut T → Option GoError
  | RunOut.diverged => none
  | RunOut.done _ err => err

/-- One snapshot of the run: the conversation state and the usage ledger. -/
abbrev Snap := List LLMMessage × UsageMap

/-- The outcome of a run together with the trace of state snapshots, one
taken after every mutation of the conversation state. -/
structure RunRes (T : Type) where
  snaps : List Snap
  out : RunOut T
deriving DecidableEq, Repr

/-- Mirrors `state.Messages[0].Content = newSystemPrompt`: replace the
content of the first message, leaving everything else unchanged. -/
def setContent0 (msgs : List LLMMessage) (c : String) : List LLMMessage :=
  match msgs with
  | [] => []
  | m :: rest => { m with Content := c } :: rest

/-- Mirrors `Agent.createResult`: render the output prompt, append it as a
user message, call `CallWithStructuredOutput` and wrap any failure of it
with `ErrLLMCall` by `%w: %s` (flattening the cause's chain).  Returns the
conversation-state snapshots it takes alongside the outcome. -/
def createResult {T : Type} (_a : Agent) (g : LLMGateway)
    (decode : String → Except GoError T) (msgs : List LLMMessage) :
    List (List LLMMessage) × RunOut T :=
  match outputPromptTemplate.Render [] with
  | Except.error e => ([], RunOut.done none (some e))
  | Except.ok outputPrompt =>
    let msgs2 := msgs ++ [NewLLMMessage LLMMessageType.user outputPrompt]
    match CallWithStructuredOutput g decode msgs2 with
    | Except.error e =>
        ([msgs2], RunOut.done none (some (GoError.wrapS ErrKind.llmCall e)))
    | Except.ok data =>
        ([msgs2], RunOut.done (some ⟨some data, msgs2⟩) none)

/-- The tail of one loop iteration, after tool dispatch: append the
assistant message; if it ends the turn, extract the result, otherwise
re-render the system prompt into the first message and iterate (`rec` is
the remainder of the loop). -/
def continueTurn {T : Type} (a : Agent) (g : LLMGateway)
    (decode : String → Except GoError T)
    (rec : List LLMMessage → UsageMap → RunRes T)
    (msgs : List LLMMessage) (u : UsageMap) (m : LLMMessage) : RunRes T :=
  let msgs1 := msgs ++ [m]
  if m.endTurn then
    let cr := createResult a g decode msgs1
    ⟨(msgs1, u) :: cr.1.map (fun ms => (ms, u)), cr.2⟩
  else
    match createSystemPrompt a u with
    | Except.error e => ⟨[(msgs1, u)], RunOut.done none (some e)⟩
    | Except.ok sp =>
      let msgs2 := setContent0 msgs1 sp
      let r := rec msgs2 u
      ⟨(msgs1, u) :: (msgs2, u) :: r.snaps, r.out⟩

/-- The `for` loop of `Agent.Run`, with the loop state (`state.Messages`
and `usage`) explicit and a fuel bound on the number of iterations.  Each
branch mirrors the corresponding branch of the Go loop; the snapshots
record the conversation state and ledger after each mutation. -/
def runAgentLoop {T : Type} (a : Agent) (g : LLMGateway)
    (decode : String → Except GoError T) :
    Nat → List LLMMessage → UsageMap → RunRes T
  | 0, _, _ => ⟨[], RunOut.diverged⟩
  | Nat.succ fuel, msgs, u =>
    match g.call msgs with
    | Except.error e =>
        ⟨[], RunOut.done none (some (GoError.wrapS ErrKind.llmCall e))⟩
    | Except.ok m0 =>
      if m0.ToolCalls = [] then
        continueTurn a g decode
          (fun ms uu => runAgentLoop a g decode fuel ms uu) msgs u m0
      else
        match callTools a m0 u with
        | (u', Except.error e) =>
          if ErrKind.limitReached ∈ e.kinds then
            ⟨[(msgs ++ [m0], u')],
             RunOut.done (some ⟨none, msgs ++ [m0]⟩)
               (some (GoError.base ErrKind.limitReached))⟩
          else
            ⟨[], RunOut.done none (some (GoError.wrapS ErrKind.toolError e))⟩
        | (u', Except.ok results) =>
          continueTurn a g decode
            (fun ms uu => runAgentLoop a g decode fuel ms uu) msgs u'
            { m0 with ToolResults := results }

/-- Mirrors `Agent.Run`: build the initial state (system + user message),
then run the loop with a fresh, empty usage ledger.  The initial state is
the first snapshot of the trace. -/
def runAgent {T : Type} (a : Agent) (g : LLMGateway)
    (decode : String → Except GoError T) (inputJSON : String) (fuel : Nat) :
    RunRes T :=
  match createInitState a inputJSON with
  | Except.error e => ⟨[], RunOut.done none (some e)⟩
  | Except.ok msgs =>
    let r := runAgentLoop a g decode fuel msgs []
    ⟨(msgs, []) :: r.snaps, r.out⟩

/-! ### Concrete fixtures

A deterministic stub gateway and a small agent, mirroring the test fixtures
of `agent_test.go` (`createAddTool`, `WithToolLimit("add", 1)` and the
stub-gateway scenario of the specification's testable properties). -/

/-- The result type of the test scenarios (`AddNumbersResult`). -/
structure SumRes where
  sum : Int
deriving DecidableEq, Repr

/-- The structured answer text the stub gateway produces. -/
def sumJSON : String := ("\x7b\"sum\":8\x7d")

/-- Modelled `json.Unmarshal` into `SumRes` for the inputs occurring in the
scenarios: the stub answer decodes, anything else is a decode error. -/
def decodeSum (s : String) : Except GoError SumRes :=
  if s = sumJSON then Except.ok ⟨8⟩
  else Except.error (GoError.base ErrKind.jsonDecode)

/-- The `add` test tool: always succeeds, echoing the call id. -/
def addTool : LLMTool :=
  { Name := ("add")
    ParametersSchema := ("\x7b\"type\":\"object\"\x7d")
    Description := ("Adds two numbers")
    Call := fun id _args => Except.ok ⟨id, ("8")⟩ }

/-- A small system prompt template for the fixtures (set the way
`WithSystemPrompt` would). -/
def testPrompt : Prompt := NewPrompt (("SYS \x7b\x7b.tools_usage\x7d\x7d"))

/-- The fixture agent: one `add` tool with limit 1. -/
def cAgent : Agent :=
  { name := ("test")
    tools := [(("add"), addTool)]
    limits := [(("add"), 1)]
    defaultToolLimit := 3
    systemPrompt := testPrompt
    behavior := ("calc") }

/-- The assistant message of the stub gateway: two `add` calls, not final. -/
def msgTwoAdds : LLMMessage :=
  { type := LLMMessageType.assistant
    Content := ("calling add twice")
    ToolCalls := [⟨("1"), ("add"), ("\x7b\x7d")⟩, ⟨("2"), ("add"), ("\x7b\x7d")⟩]
    ToolResults := []
    endTurn := false }

/-- Stub gateway returning the fixed two-`add` assistant message. -/
def gwTwoAdds : LLMGateway :=
  { call := fun _ => Except.ok msgTwoAdds
    callStructured := fun _ => Except.ok sumJSON }

/-- A final assistant turn with no tool calls. -/
def msgFinal : LLMMessage :=
  { type := LLMMessageType.assistant
    Content := ("I know the answer")
    ToolCalls := []
    ToolResults := []
    endTurn := true }

/-- Stub gateway that immediately finishes and answers well-formed JSON. -/
def gwFinalOk : LLMGateway :=
  { call := fun _ => Except.ok msgFinal
    callStructured := fun _ => Except.ok sumJSON }

/-- Stub gateway that immediately finishes but answers text that does not
decode into the declared result type. -/
def gwFinalBad : LLMGateway :=
  { call := fun _ => Except.ok msgFinal
    callStructured := fun _ => Except.ok ("not json") }

/-! ### Usage-ledger lemmas -/

theorem usageGet_bump_self (u : UsageMap) (k : String) :
    usageGet (usageBump u k) k = usageGet u k + 1 := by
  simp [usageGet, usageBump, List.lookup]

theorem usageGet_bump_ne (u : UsageMap) (k m : String) (h : m ≠ k) :
    usageGet (usageBump u k) m = usageGet u m := by
  have hbeq : (m == k) = false := beq_eq_false_iff_ne.mpr h
  simp [usageGet, usageBump, List.lookup, hbeq]

/-- The per-name ledger invariant: a count is never negative and never
exceeds `max(limit, 0)` (for a nonnegative limit this is the configured
ceiling; a nonpositive limit pins the count to `0`). -/
def usageBound (a : Agent) (n : String) (u : UsageMap) : Prop :=
  0 ≤ usageGet u n ∧ usageGet u n ≤ max (a.GetToolLimit n) 0

/-- Usage comparison of two snapshots at one tool name. -/
def snapLE (n : String) (s t : Snap) : Prop :=
  usageGet s.2 n ≤ usageGet t.2 n

/-- Tool dispatch only ever increments the ledger (monotonicity at every
name) and preserves the per-name invariant. -/
theorem callToolsLoop_usage (a : Agent) (n : String) :
    ∀ (calls : List LLMToolCall) (u : UsageMap) (acc : List LLMToolResult),
      usageGet u n ≤ usageGet (callToolsLoop a calls u acc).1 n ∧
      (usageBound a n u → usageBound a n (callToolsLoop a calls u acc).1) := by
  intro calls
  induction calls with
  | nil => intro u acc; exact ⟨le_refl _, fun hb => hb⟩
  | cons c rest ih =>
    intro u acc
    simp only [callToolsLoop]
    cases hlk : a.tools.lookup c.ToolName with
    | none => exact ⟨le_refl _, fun hb => hb⟩
    | some tool =>
      by_cases hlim : a.GetToolLimit c.ToolName ≤ usageGet u c.ToolName
      · simp only [if_pos hlim]
        exact ⟨le_refl _, fun hb => hb⟩
      · simp only [if_neg hlim]
        cases hcall : tool.Call c.ID c.Args with
        | error e => exact ⟨le_refl _, fun hb => hb⟩
        | ok r =>
          have h2 := ih (usageBump u c.ToolName) (acc ++ [r])
          by_cases hn : c.ToolName = n
          · subst hn
            refine ⟨?_, ?_⟩
            · have : usageGet u c.ToolName ≤ usageGet (usageBump u c.ToolName) c.ToolName := by
                rw [usageGet_bump_self]; omega
              exact le_trans this h2.1
            · intro hb
              obtain ⟨hb1, hb2⟩ := hb
              apply h2.2
              refine ⟨?_, ?_⟩
              · rw [usageGet_bump_self]; omega
              · rw [usageGet_bump_self]
                have h3 : usageGet u c.ToolName + 1 ≤ a.GetToolLimit c.ToolName := by omega
                exact le_trans h3 (le_max_left _ _)
          · have hbn : usageGet (usageBump u c.ToolName) n = usageGet u n :=
              usageGet_bump_ne u c.ToolName n (fun h => hn h.symm)
            refine ⟨?_, ?_⟩
            · rw [← hbn]; exact h2.1
            · intro hb
              apply h2.2
              unfold usageBound
              rw [hbn]
              exact hb

/-- A trace segment whose snapshots all carry the same ledger is trivially
monotone. -/
theorem chain'_const_usage (n : String) (u : UsageMap) (x : List LLMMessage)
    (l : List (List LLMMessage)) :
    List.Chain' (snapLE n) ((x, u) :: l.map (fun ms => (ms, u))) := by
  induction l generalizing x with
  | nil => simp
  | cons y t ih =>
    simp only [List.map_cons, List.chain'_cons]
    exact ⟨le_refl _, ih y⟩

/-- Invariant and monotonicity of the ledger along the tail of one loop
iteration, given them for the remaining iterations. -/
theorem continueTurn_usage {T : Type} (a : Agent) (g : LLMGateway)
    (decode : String → Except GoError T) (n : String)
    (rec : List LLMMessage → UsageMap → RunRes T)
    (ih : ∀ (msgs : List LLMMessage) (u : UsageMap), usageBound a n u →
      (∀ s ∈ (rec msgs u).snaps, usageBound a n s.2) ∧
      List.Chain' (snapLE n) ((msgs, u) :: (rec msgs u).snaps))
    (msgs : List LLMMessage) (u : UsageMap) (m : LLMMessage)
    (hu : usageBound a n u) :
    (∀ s ∈ (continueTurn a g decode rec msgs u m).snaps, usageBound a n s.2) ∧
    List.Chain' (snapLE n) ((msgs, u) :: (continueTurn a g decode rec msgs u m).snaps) := by
  simp only [continueTurn]
  by_cases he : m.endTurn
  · simp only [if_pos he]
    refine ⟨?_, ?_⟩
    · intro s hs
      simp only [List.mem_cons, List.mem_map] at hs
      rcases hs with h | ⟨ms, _, h⟩
      · rw [h]; exact hu
      · rw [← h]; exact hu
    · have := chain'_const_usage n u msgs
        ((msgs ++ [m]) :: (createResult a g decode (msgs ++ [m])).1)
      simpa using this
  · simp only [if_neg he]
    cases hsp : createSystemPrompt a u with
    | error e =>
      refine ⟨?_, ?_⟩
      · intro s hs
        simp only [List.mem_singleton] at hs
        rw [hs]; exact hu
      · simp [snapLE]
    | ok sp =>
      have h2 := ih (setContent0 (msgs ++ [m]) sp) u hu
      refine ⟨?_, ?_⟩
      · intro s hs
        simp only [List.mem_cons] at hs
        rcases hs with h | h | h
        · rw [h]; exact hu
        · rw [h]; exact hu
        · exact h2.1 s h
      · simp only [List.chain'_cons]
        exact ⟨le_refl _, le_refl _, h2.2⟩

/-- Invariant and monotonicity of the ledger along the whole loop. -/
theorem runAgentLoop_usage {T : Type} (a : Agent) (g : LLMGateway)
    (decode : String → Except GoError T) (n : String) :
    ∀ (fuel : Nat) (msgs : List LLMMessage) (u : UsageMap), usageBound a n u →
      (∀ s ∈ (runAgentLoop a g decode fuel msgs u).snaps, usageBound a n s.2) ∧
      List.Chain' (snapLE n) ((msgs, u) :: (runAgentLoop a g decode fuel msgs u).snaps) := by
  intro fuel
  induction fuel with
  | zero => intro msgs u hu; simp [runAgentLoop]
  | succ fuel ih =>
    intro msgs u hu
    simp only [runAgentLoop]
    cases hg : g.call msgs with
    | error e => simp
    | ok m0 =>
      by_cases htc : m0.ToolCalls = []
      · simp only [if_pos htc]
        exact continueTurn_usage a g decode n
          (fun ms uu => runAgentLoop a g decode fuel ms uu) ih msgs u m0 hu
      · simp only [if_neg htc]
        have hct := callToolsLoop_usage a n m0.ToolCalls u []
        rcases hres : callTools a m0 u with ⟨u', res⟩
        simp only [callTools] at hres
        rw [hres] at hct
        cases res with
        | error e =>
          by_cases hmem : ErrKind.limitReached ∈ e.kinds
          · simp only [if_pos hmem]
            refine ⟨?_, ?_⟩
            · intro s hs
              simp only [List.mem_singleton] at hs
              rw [hs]
              exact hct.2 hu
            · simp only [List.chain'_cons, List.chain'_singleton, and_true]
              exact hct.1
          · simp only [if_neg hmem]
            simp
        | ok results =>
          have h2 := continueTurn_usage a g decode n
            (fun ms uu => runAgentLoop a g decode fuel ms uu) ih msgs u'
            { m0 with ToolResults := results } (hct.2 hu)
          refine ⟨h2.1, ?_⟩
          have hch := h2.2
          cases hcc : (continueTurn a g decode
              (fun ms uu => runAgentLoop a g decode fuel ms uu) msgs u'
              { m0 with ToolResults := results }).snaps with
          | nil => simp
          | cons s rest =>
            rw [hcc] at hch
            simp only [List.chain'_cons] at hch ⊢
            exact ⟨le_trans hct.1 hch.1, hch.2⟩

/-- The fresh ledger of a run satisfies the invariant, so every snapshot of
a run does, and the ledger grows monotonically along the trace. -/
theorem runAgent_usage {T : Type} (a : Agent) (g : LLMGateway)
    (decode : String → Except GoError T) (input : String) (fuel : Nat)
    (n : String) :
    (∀ s ∈ (runAgent a g decode input fuel).snaps, usageBound a n s.2) ∧
    List.Chain' (snapLE n) (runAgent a g decode input fuel).snaps := by
  simp only [runAgent]
  cases hinit : createInitState a input with
  | error e => simp
  | ok msgs =>
    have h0 : usageBound a n [] := by
      refine ⟨le_refl 0, ?_⟩
      · show (0 : Int) ≤ max (a.GetToolLimit n) 0
        exact le_max_right _ _
    have h := runAgentLoop_usage a g decode n fuel msgs [] h0
    refine ⟨?_, h.2⟩
    intro s hs
    simp only [List.mem_cons] at hs
    rcases hs with hh | ht
    · rw [hh]; exact h0
    · exact h.1 s ht

/-- Claim C1: for every tool name, at every point of a run (with the spec's
nonnegative ceiling) the ledger count stays between `0` and the configured
ceiling; the ledger is monotone along the whole trace (never decremented);
and a successful dispatch increments exactly the dispatched tool's entry by
exactly 1, leaving every other entry unchanged. -/
theorem c1_ledger_invariant (a : Agent) (n : String)
    (hL : 0 ≤ a.GetToolLimit n) :
    (∀ (T : Type) (g : LLMGateway) (decode : String → Except GoError T)
        (input : String) (fuel : Nat),
      (∀ s ∈ (runAgent a g decode input fuel).snaps,
          0 ≤ usageGet s.2 n ∧ usageGet s.2 n ≤ a.GetToolLimit n) ∧
      List.Chain' (snapLE n) (runAgent a g decode input fuel).snaps) ∧
    (∀ (c : LLMToolCall) (rest : List LLMToolCall) (u : UsageMap)
        (acc : List LLMToolResult) (tool : LLMTool) (r : LLMToolResult),
      a.tools.lookup c.ToolName = some tool →
      usageGet u c.ToolName < a.GetToolLimit c.ToolName →
      tool.Call c.ID c.Args = Except.ok r →
      callToolsLoop a (c :: rest) u acc
          = callToolsLoop a rest (usageBump u c.ToolName) (acc ++ [r]) ∧
        usageGet (usageBump u c.ToolName) c.ToolName
          = usageGet u c.ToolName + 1 ∧
        ∀ m, m ≠ c.ToolName →
          usageGet (usageBump u c.ToolName) m = usageGet u m) := by
  constructor
  · intro T g decode input fuel
    have h := runAgent_usage a g decode input fuel n
    refine ⟨?_, h.2⟩
    intro s hs
    have hb := h.1 s hs
    have hmax : max (a.GetToolLimit n) 0 = a.GetToolLimit n := max_eq_left hL
    exact ⟨hb.1, by rw [← hmax]; exact hb.2⟩
  · intro c rest u acc tool r hlk hlt hcall
    refine ⟨?_, usageGet_bump_self u c.ToolName, ?_⟩
    · have hnle : ¬ a.GetToolLimit c.ToolName ≤ usageGet u c.ToolName := by omega
      simp [callToolsLoop, hlk, if_neg hnle, hcall]
    · intro m hm
      exact usageGet_bump_ne u c.ToolName m hm

/-- Witness for C1 at the fixture agent and the `add` tool. -/
theorem c1_ledger_invariant_witness :
    0 ≤ cAgent.GetToolLimit ("add") ∧
    ((∀ (T : Type) (g : LLMGateway) (decode : String → Except GoError T)
        (input : String) (fuel : Nat),
      (∀ s ∈ (runAgent cAgent g decode input fuel).snaps,
          0 ≤ usageGet s.2 ("add") ∧
          usageGet s.2 ("add") ≤ cAgent.GetToolLimit ("add")) ∧
      List.Chain' (snapLE ("add")) (runAgent cAgent g decode input fuel).snaps) ∧
    (∀ (c : LLMToolCall) (rest : List LLMToolCall) (u : UsageMap)
        (acc : List LLMToolResult) (tool : LLMTool) (r : LLMToolResult),
      cAgent.tools.lookup c.ToolName = some tool →
      usageGet u c.ToolName < cAgent.GetToolLimit c.ToolName →
      tool.Call c.ID c.Args = Except.ok r →
      callToolsLoop cAgent (c :: rest) u acc
          = callToolsLoop cAgent rest (usageBump u c.ToolName) (acc ++ [r]) ∧
        usageGet (usageBump u c.ToolName) c.ToolName
          = usageGet u c.ToolName + 1 ∧
        ∀ m, m ≠ c.ToolName →
          usageGet (usageBump u c.ToolName) m = usageGet u m)) :=
  ⟨by decide, c1_ledger_invariant cAgent ("add") (by decide)⟩

/-- Claim C6: a dispatch step for a registered tool whose ledger count has
reached its limit yields `ErrLimitReached` with the ledger returned
unchanged, no result collected, and the remaining calls not dispatched; the
outcome does not depend on the tool's function, so the tool is not
invoked. -/
theorem c6_limit_blocks_dispatch (a : Agent) (c : LLMToolCall)
    (rest : List LLMToolCall) (u : UsageMap) (acc : List LLMToolResult)
    (h1 : (a.tools.lookup c.ToolName).isSome)
    (h2 : a.GetToolLimit c.ToolName ≤ usageGet u c.ToolName) :
    callToolsLoop a (c :: rest) u acc
      = (u, Except.error (GoError.base ErrKind.limitReached)) := by
  obtain ⟨tool, hlk⟩ := Option.isSome_iff_exists.mp h1
  simp [callToolsLoop, hlk, if_pos h2]

/-- Witness for C6: the second `add` call of the fixture scenario. -/
theorem c6_limit_blocks_dispatch_witness :
    ((cAgent.tools.lookup ("add")).isSome ∧
     cAgent.GetToolLimit ("add") ≤ usageGet [(("add"), 1)] ("add")) ∧
    callToolsLoop cAgent [⟨("2"), ("add"), ("\x7b\x7d")⟩] [(("add"), 1)] []
      = ([(("add"), 1)], Except.error (GoError.base ErrKind.limitReached)) :=
  ⟨⟨by decide, by decide⟩,
   c6_limit_blocks_dispatch cAgent ⟨("2"), ("add"), ("\x7b\x7d")⟩ [] [(("add"), 1)] []
     (by decide) (by decide)⟩

/-- Claim C9: with a zero or negative configured limit (which the code does
not rule out), every dispatch of that registered tool signals
`ErrLimitReached` immediately, the tool function is never consulted, and
the tool's ledger entry is `0` at every point of every run. -/
theorem c9_nonpositive_limit (a : Agent) (n : String)
    (hL : a.GetToolLimit n ≤ 0) :
    (∀ (c : LLMToolCall) (rest : List LLMToolCall) (u : UsageMap)
        (acc : List LLMToolResult),
      c.ToolName = n → (a.tools.lookup n).isSome → 0 ≤ usageGet u n →
      callToolsLoop a (c :: rest) u acc
        = (u, Except.error (GoError.base ErrKind.limitReached))) ∧
    (∀ (T : Type) (g : LLMGateway) (decode : String → Except GoError T)
        (input : String) (fuel : Nat),
      ∀ s ∈ (runAgent a g decode input fuel).snaps, usageGet s.2 n = 0) := by
  constructor
  · intro c rest u acc hc hsome hnn
    obtain ⟨tool, hlk⟩ := Option.isSome_iff_exists.mp hsome
    have hlk2 : a.tools.lookup c.ToolName = some tool := by rw [hc]; exact hlk
    have hle2 : a.GetToolLimit c.ToolName ≤ usageGet u c.ToolName := by
      rw [hc]; exact le_trans hL hnn
    simp [callToolsLoop, hlk2, if_pos hle2]
  · intro T g decode input fuel s hs
    obtain ⟨h1, h2⟩ := (runAgent_usage a g decode input fuel n).1 s hs
    have hmax : max (a.GetToolLimit n) 0 = 0 := max_eq_right hL
    rw [hmax] at h2
    omega

/-- The fixture agent with the `add` limit set to `0`. -/
def zAgent : Agent := { cAgent with limits := [(("add"), 0)] }

/-- Witness for C9 at the zero-limit fixture agent. -/
theorem c9_nonpositive_limit_witness :
    zAgent.GetToolLimit ("add") ≤ 0 ∧
    ((∀ (c : LLMToolCall) (rest : List LLMToolCall) (u : UsageMap)
        (acc : List LLMToolResult),
      c.ToolName = ("add") → (zAgent.tools.lookup ("add")).isSome →
      0 ≤ usageGet u ("add") →
      callToolsLoop zAgent (c :: rest) u acc
        = (u, Except.error (GoError.base ErrKind.limitReached))) ∧
    (∀ (T : Type) (g : LLMGateway) (decode : String → Except GoError T)
        (input : String) (fuel : Nat),
      ∀ s ∈ (runAgent zAgent g decode input fuel).snaps,
        usageGet s.2 ("add") = 0)) :=
  ⟨by decide, c9_nonpositive_limit zAgent ("add") (by decide)⟩

/-! ### Conversation-state lemmas -/

/-- The first message of a conversation state has role `system`. -/
def headSystem (ms : List LLMMessage) : Prop :=
  ms.head?.map LLMMessage.type = some LLMMessageType.system

/-- The two ways one snapshot's conversation state arises from the previous
one: appending a new message, or replacing the content of the first
message. -/
def msgStep (s t : Snap) : Prop :=
  (∃ m, t.1 = s.1 ++ [m]) ∨ (∃ c, t.1 = setContent0 s.1 c)

/-- Roles of already-present messages are unchanged by a state step. -/
def rolesStep (s t : Snap) : Prop :=
  ∀ i, i < s.1.length → (t.1[i]?).map LLMMessage.type = (s.1[i]?).map LLMMessage.type

theorem headSystem_append (ms l : List LLMMessage) (h : headSystem ms) :
    headSystem (ms ++ l) := by
  cases ms with
  | nil => simp [headSystem] at h
  | cons m rest => simpa [headSystem] using h

theorem headSystem_set0 (ms : List LLMMessage) (c : String)
    (h : headSystem ms) : headSystem (setContent0 ms c) := by
  cases ms with
  | nil => simp [headSystem] at h
  | cons m rest => simpa [headSystem, setContent0] using h

theorem msgStep_roles (s t : Snap) (h : msgStep s t) : rolesStep s t := by
  rcases h with ⟨m, hm⟩ | ⟨c, hc⟩
  · intro i hi
    rw [hm, List.getElem?_append_left hi]
  · intro i hi
    rw [hc]
    cases hs : s.1 with
    | nil => rw [hs] at hi; simp at hi
    | cons m rest =>
      cases i with
      | zero => simp [setContent0]
      | succ j => simp [setContent0]

/-- Structure of the state snapshots `createResult` contributes. -/
theorem createResult_fst {T : Type} (a : Agent) (g : LLMGateway)
    (decode : String → Except GoError T) (msgs : List LLMMessage) :
    (createResult a g decode msgs).1 = [] ∨
    ∃ op, outputPromptTemplate.Render [] = Except.ok op ∧
      (createResult a g decode msgs).1
        = [msgs ++ [NewLLMMessage LLMMessageType.user op]] := by
  cases hro : outputPromptTemplate.Render [] with
  | error e =>
    left
    unfold createResult
    rw [hro]
  | ok op =>
    right
    refine ⟨op, rfl, ?_⟩
    unfold createResult
    rw [hro]
    dsimp only
    cases hcs : CallWithStructuredOutput g decode
        (msgs ++ [NewLLMMessage LLMMessageType.user op]) with
    | error e => rfl
    | ok data => rfl

/-- Along the tail of one iteration, every state change is an append or a
content replacement of the first message, and the head stays `system`. -/
theorem continueTurn_msgs {T : Type} (a : Agent) (g : LLMGateway)
    (decode : String → Except GoError T)
    (rec : List LLMMessage → UsageMap → RunRes T)
    (ih : ∀ (msgs : List LLMMessage) (u : UsageMap), headSystem msgs →
      (∀ s ∈ (rec msgs u).snaps, headSystem s.1) ∧
      List.Chain' msgStep ((msgs, u) :: (rec msgs u).snaps))
    (msgs : List LLMMessage) (u : UsageMap) (m : LLMMessage)
    (hh : headSystem msgs) :
    (∀ s ∈ (continueTurn a g decode rec msgs u m).snaps, headSystem s.1) ∧
    List.Chain' msgStep ((msgs, u) :: (continueTurn a g decode rec msgs u m).snaps) := by
  simp only [continueTurn]
  by_cases he : m.endTurn
  · simp only [if_pos he]
    rcases createResult_fst a g decode (msgs ++ [m]) with h | ⟨op, _, h⟩
    · rw [h]
      refine ⟨?_, ?_⟩
      · intro s hs
        simp only [List.map_nil, List.mem_singleton] at hs
        rw [hs]
        exact headSystem_append msgs [m] hh
      · simp only [List.map_nil, List.chain'_cons, List.chain'_singleton, and_true]
        exact Or.inl ⟨m, rfl⟩
    · rw [h]
      refine ⟨?_, ?_⟩
      · intro s hs
        simp only [List.map_cons, List.map_nil, List.mem_cons,
          List.mem_singleton, List.mem_nil_iff, or_false] at hs
        rcases hs with hs | hs
        · rw [hs]; exact headSystem_append msgs [m] hh
        · rw [hs]
          exact headSystem_append _ _ (headSystem_append msgs [m] hh)
      · simp only [List.map_cons, List.map_nil, List.chain'_cons,
          List.chain'_singleton, and_true]
        exact ⟨Or.inl ⟨m, rfl⟩, Or.inl ⟨NewLLMMessage LLMMessageType.user op, rfl⟩⟩
  · simp only [if_neg he]
    cases hsp : createSystemPrompt a u with
    | error e =>
      refine ⟨?_, ?_⟩
      · intro s hs
        simp only [List.mem_singleton] at hs
        rw [hs]
        exact headSystem_append msgs [m] hh
      · simp only [List.chain'_cons, List.chain'_singleton, and_true]
        exact Or.inl ⟨m, rfl⟩
    | ok sp =>
      have hh1 : headSystem (msgs ++ [m]) := headSystem_append msgs [m] hh
      have hh2 : headSystem (setContent0 (msgs ++ [m]) sp) :=
        headSystem_set0 _ sp hh1
      have h2 := ih (setContent0 (msgs ++ [m]) sp) u hh2
      refine ⟨?_, ?_⟩
      · intro s hs
        simp only [List.mem_cons] at hs
        rcases hs with hs | hs | hs
        · rw [hs]; exact hh1
        · rw [hs]; exact hh2
        · exact h2.1 s hs
      · simp only [List.chain'_cons]
        exact ⟨Or.inl ⟨m, rfl⟩, Or.inr ⟨sp, rfl⟩, h2.2⟩

/-- Along the whole loop, every state change is an append or a content
replacement of the first message, and the head stays `system`. -/
theorem runAgentLoop_msgs {T : Type} (a : Agent) (g : LLMGateway)
    (decode : String → Except GoError T) :
    ∀ (fuel : Nat) (msgs : List LLMMessage) (u : UsageMap), headSystem msgs →
      (∀ s ∈ (runAgentLoop a g decode fuel msgs u).snaps, headSystem s.1) ∧
      List.Chain' msgStep ((msgs, u) :: (runAgentLoop a g decode fuel msgs u).snaps) := by
  intro fuel
  induction fuel with
  | zero => intro msgs u _; simp [runAgentLoop]
  | succ fuel ih =>
    intro msgs u hh
    simp only [runAgentLoop]
    cases hg : g.call msgs with
    | error e => simp
    | ok m0 =>
      by_cases htc : m0.ToolCalls = []
      · simp only [if_pos htc]
        exact continueTurn_msgs a g decode
          (fun ms uu => runAgentLoop a g decode fuel ms uu) ih msgs u m0 hh
      · simp only [if_neg htc]
        rcases hres : callTools a m0 u with ⟨u', res⟩
        cases res with
        | error e =>
          by_cases hmem : ErrKind.limitReached ∈ e.kinds
          · simp only [if_pos hmem]
            refine ⟨?_, ?_⟩
            · intro s hs
              simp only [List.mem_singleton] at hs
              rw [hs]
              exact headSystem_append msgs [m0] hh
            · simp only [List.chain'_cons, List.chain'_singleton, and_true]
              exact Or.inl ⟨m0, rfl⟩
          · simp only [if_neg hmem]; simp
        | ok results =>
          have h2 := continueTurn_msgs a g decode
            (fun ms uu => runAgentLoop a g decode fuel ms uu) ih msgs u'
            { m0 with ToolResults := results } hh
          refine ⟨h2.1, ?_⟩
          have hch := h2.2
          cases hcc : (continueTurn a g decode
              (fun ms uu => runAgentLoop a g decode fuel ms uu) msgs u'
              { m0 with ToolResults := results }).snaps with
          | nil => simp
          | cons s rest =>
            rw [hcc] at hch
            simp only [List.chain'_cons] at hch ⊢
            exact hch

/-- A successfully built initial state starts with the system message. -/
theorem createInitState_head (a : Agent) (input : String)
    (msgs : List LLMMessage) (h : createInitState a input = Except.ok msgs) :
    headSystem msgs := by
  unfold createInitState at h
  split at h
  · exact absurd h (by simp)
  · split at h
    · exact absurd h (by simp)
    · have h2 := Except.ok.inj h
      rw [← h2]
      rfl

/-- Claim C7: along every run, the first message of every conversation-state
snapshot has role `system`; each snapshot arises from the previous one
either by appending a new message or by replacing the content of the first
message (the content replacement happening between loop iterations); and no
already-present message's role is ever changed. -/
theorem c7_state_mutation_discipline {T : Type} (a : Agent) (g : LLMGateway)
    (decode : String → Except GoError T) (input : String) (fuel : Nat) :
    (∀ s ∈ (runAgent a g decode input fuel).snaps, headSystem s.1) ∧
    List.Chain' msgStep (runAgent a g decode input fuel).snaps ∧
    List.Chain' rolesStep (runAgent a g decode input fuel).snaps := by
  simp only [runAgent]
  cases hinit : createInitState a input with
  | error e => simp
  | ok msgs =>
    have hh : headSystem msgs := createInitState_head a input msgs hinit
    have h := runAgentLoop_msgs a g decode fuel msgs [] hh
    refine ⟨?_, ?_, ?_⟩
    · intro s hs
      simp only [List.mem_cons] at hs
      rcases hs with hs | hs
      · rw [hs]; exact hh
      · exact h.1 s hs
    · exact h.2
    · exact List.Chain'.imp (fun s t hst => msgStep_roles s t hst) h.2

/-! ### Success-path lemmas -/

/-- If the tail of an iteration ends in a successful structured result, the
returned history ends with the rendered output-template user message and the
decoded data is present. -/
theorem continueTurn_success {T : Type} (a : Agent) (g : LLMGateway)
    (decode : String → Except GoError T)
    (rec : List LLMMessage → UsageMap → RunRes T)
    (ih : ∀ (msgs : List LLMMessage) (u : UsageMap) (res : AgentResult T),
      (rec msgs u).out = RunOut.done (some res) none →
      res.Data.isSome = true ∧
      ∃ op, outputPromptTemplate.Render [] = Except.ok op ∧
        res.Messages.getLast? = some (NewLLMMessage LLMMessageType.user op))
    (msgs : List LLMMessage) (u : UsageMap) (m : LLMMessage)
    (res : AgentResult T)
    (h : (continueTurn a g decode rec msgs u m).out = RunOut.done (some res) none) :
    res.Data.isSome = true ∧
    ∃ op, outputPromptTemplate.Render [] = Except.ok op ∧
      res.Messages.getLast? = some (NewLLMMessage LLMMessageType.user op) := by
  simp only [continueTurn] at h
  by_cases he : m.endTurn
  · rw [if_pos he] at h
    dsimp only at h
    revert h
    unfold createResult
    cases hro : outputPromptTemplate.Render [] with
    | error e => intro h; dsimp only at h; simp at h
    | ok op =>
      dsimp only
      cases hcs : CallWithStructuredOutput g decode
          ((msgs ++ [m]) ++ [NewLLMMessage LLMMessageType.user op]) with
      | error e => intro h; dsimp only at h; simp at h
      | ok data =>
        intro h
        dsimp only at h
        have h2 := (RunOut.done.inj h).1
        have h3 : res = ⟨some data, (msgs ++ [m]) ++ [NewLLMMessage LLMMessageType.user op]⟩ :=
          (Option.some.inj h2).symm
        rw [h3]
        refine ⟨rfl, op, rfl, ?_⟩
        dsimp only
        exact List.getLast?_concat _
  · rw [if_neg he] at h
    revert h
    cases hsp : createSystemPrompt a u with
    | error e => intro h; dsimp only at h; simp at h
    | ok sp =>
      intro h
      dsimp only at h
      exact ih _ u res h

/-- If the loop ends in a successful structured result, the returned history
ends with the rendered output-template user message and the decoded data is
present. -/
theorem runAgentLoop_success {T : Type} (a : Agent) (g : LLMGateway)
    (decode : String → Except GoError T) :
    ∀ (fuel : Nat) (msgs : List LLMMessage) (u : UsageMap) (res : AgentResult T),
      (runAgentLoop a g decode fuel msgs u).out = RunOut.done (some res) none →
      res.Data.isSome = true ∧
      ∃ op, outputPromptTemplate.Render [] = Except.ok op ∧
        res.Messages.getLast? = some (NewLLMMessage LLMMessageType.user op) := by
  intro fuel
  induction fuel with
  | zero => intro msgs u res h; simp [runAgentLoop] at h
  | succ fuel ih =>
    intro msgs u res h
    simp only [runAgentLoop] at h
    revert h
    cases hg : g.call msgs with
    | error e => intro h; dsimp only at h; simp at h
    | ok m0 =>
      dsimp only
      by_cases htc : m0.ToolCalls = []
      · rw [if_pos htc]
        intro h
        exact continueTurn_success a g decode
          (fun ms uu => runAgentLoop a g decode fuel ms uu) ih msgs u m0 res h
      · rw [if_neg htc]
        rcases hres : callTools a m0 u with ⟨u', r⟩
        cases r with
        | error e =>
          dsimp only
          by_cases hmem : ErrKind.limitReached ∈ e.kinds
          · rw [if_pos hmem]
            intro h
            dsimp only at h
            exact absurd (RunOut.done.inj h).2 (by simp)
          · rw [if_neg hmem]
            intro h
            dsimp only at h
            simp at h
        | ok results =>
          dsimp only
          intro h
          exact continueTurn_success a g decode
            (fun ms uu => runAgentLoop a g decode fuel ms uu) ih msgs u'
            { m0 with ToolResults := results } res h

/-! ### Claims about the loop outcomes -/

/-- Claim C2 (amended): when a tool dispatch within an assistant turn yields
`LimitReached`, the run terminates with the distinguished `LimitReached`
outcome, the assistant message is appended to the conversation state
unchanged — `callTools` discards the tool results collected for the calls
dispatched before the abort, so they are not attached to the message — the
history up to that point is returned, and no structured result is
returned. -/
theorem c2_limit_reached_turn {T : Type} (a : Agent) (g : LLMGateway)
    (decode : String → Except GoError T) (fuel : Nat)
    (msgs : List LLMMessage) (u : UsageMap) (m : LLMMessage)
    (u' : UsageMap) (e : GoError)
    (hg : g.call msgs = Except.ok m)
    (htc : m.ToolCalls ≠ [])
    (hct : callTools a m u = (u', Except.error e))
    (hk : ErrKind.limitReached ∈ e.kinds) :
    runAgentLoop a g decode (fuel + 1) msgs u
      = ⟨[(msgs ++ [m], u')],
         RunOut.done (some ⟨none, msgs ++ [m]⟩)
           (some (GoError.base ErrKind.limitReached))⟩ := by
  simp only [runAgentLoop, hg]
  rw [if_neg htc]
  simp only [hct]
  rw [if_pos hk]

/-- Witness for C2 at the two-`add` stub scenario. -/
theorem c2_limit_reached_turn_witness :
    (gwTwoAdds.call [] = Except.ok msgTwoAdds ∧
     msgTwoAdds.ToolCalls ≠ [] ∧
     callTools cAgent msgTwoAdds []
       = ([(("add"), 1)], Except.error (GoError.base ErrKind.limitReached)) ∧
     ErrKind.limitReached ∈ (GoError.base ErrKind.limitReached).kinds) ∧
    runAgentLoop cAgent gwTwoAdds decodeSum (0 + 1) [] []
      = ⟨[([] ++ [msgTwoAdds], [(("add"), 1)])],
         RunOut.done (some ⟨none, [] ++ [msgTwoAdds]⟩)
           (some (GoError.base ErrKind.limitReached))⟩ :=
  ⟨⟨rfl, by decide, by decide, by decide⟩,
   c2_limit_reached_turn cAgent gwTwoAdds decodeSum 0 [] [] msgTwoAdds
     [(("add"), 1)] (GoError.base ErrKind.limitReached)
     rfl (by decide) (by decide) (by decide)⟩

/-- Counterexample to C2 as stated: in the two-`add`, limit-1 scenario the
first dispatch succeeds and collects a tool result, the second hits the
limit; yet the assistant message appended to the returned history carries an
empty `ToolResults` — the results collected before the abort are discarded,
not attached. -/
theorem c2_counterexample :
    callToolsLoop cAgent [⟨("1"), ("add"), ("\x7b\x7d")⟩] [] []
      = ([(("add"), 1)], Except.ok [⟨("1"), ("8")⟩]) ∧
    callTools cAgent msgTwoAdds []
      = ([(("add"), 1)], Except.error (GoError.base ErrKind.limitReached)) ∧
    ((runAgent cAgent gwTwoAdds decodeSum ("\x7b\x7d") 5).out.resultOf.map
        (fun res => res.Messages.getLast?.map LLMMessage.ToolResults))
      = some (some []) ∧
    (runAgent cAgent gwTwoAdds decodeSum ("\x7b\x7d") 5).out.errorOf
      = some (GoError.base ErrKind.limitReached) := by
  decide

/-- Claim C3: with the deterministic stub gateway returning two `add` calls
and a limit of 1 for `add`, `Run` returns the `LimitReached` error, the
history has exactly the initial system and user messages plus the partial
assistant turn (length 3), the result data is empty, and the `add` tool is
dispatched successfully exactly once (its final ledger count is 1). -/
theorem c3_stub_limit_scenario :
    ((runAgent cAgent gwTwoAdds decodeSum ("\x7b\x7d") 5).out.resultOf.map
        (fun res => res.Data)) = some none ∧
    ((runAgent cAgent gwTwoAdds decodeSum ("\x7b\x7d") 5).out.resultOf.map
        (fun res => res.Messages.map LLMMessage.type))
      = some [LLMMessageType.system, LLMMessageType.user, LLMMessageType.assistant] ∧
    ((runAgent cAgent gwTwoAdds decodeSum ("\x7b\x7d") 5).out.resultOf.map
        (fun res => res.Messages.length)) = some 3 ∧
    (runAgent cAgent gwTwoAdds decodeSum ("\x7b\x7d") 5).out.errorOf
      = some (GoError.base ErrKind.limitReached) ∧
    ((runAgent cAgent gwTwoAdds decodeSum ("\x7b\x7d") 5).snaps.getLast?.map
        (fun s => usageGet s.2 ("add"))) = some 1 := by
  decide

/-- Claim C4 (divergence evidence): when the final structured-output
response does not decode into the declared result type, `Run` returns a
defined error outcome (no crash) — but its `errors.Is` chain contains only
`ErrLLMCall` (the decode failure is flattened by the `%w: %s` wrap in
`createResult`), not `ErrInvalidResultSchema` as the error's own
documentation and the specification state. -/
theorem c4_decode_failure_is_llmcall :
    (runAgent cAgent gwFinalBad decodeSum ("\x7b\x7d") 3).out.resultOf = none ∧
    (runAgent cAgent gwFinalBad decodeSum ("\x7b\x7d") 3).out.errorOf
      = some (GoError.base ErrKind.llmCall) ∧
    errorsIs (GoError.base ErrKind.llmCall) ErrKind.llmCall ∧
    ¬ errorsIs (GoError.base ErrKind.llmCall) ErrKind.invalidResultSchema := by
  decide

/-- Claim C5 (amended): `Render` never fails on a template that parses; an
unresolved placeholder does not raise an error but renders as the text
`<no value>` (the default `missingkey` behaviour of Go `text/template` on a
map context). -/
theorem c5_render_unresolved_no_error (p : Prompt)
    (args : List (String × String)) (segs : List Seg)
    (h : parseAux p.Template.data = some segs) :
    p.Render args = Except.ok (renderSegs args segs) ∧
    ∀ k, args.lookup k = none → segValue args (Seg.var k) = ("<no value>") := by
  constructor
  · simp [Prompt.Render, h]
  · intro k hk
    simp [segValue, hk]

/-- Witness for C5 at a one-placeholder template and an empty context. -/
theorem c5_render_unresolved_no_error_witness :
    parseAux (NewPrompt ("\x7b\x7b.x\x7d\x7d")).Template.data
        = some [Seg.var ("x")] ∧
    ((NewPrompt ("\x7b\x7b.x\x7d\x7d")).Render []
        = Except.ok (renderSegs [] [Seg.var ("x")]) ∧
     ∀ k, ([] : List (String × String)).lookup k = none →
       segValue [] (Seg.var k) = ("<no value>")) :=
  ⟨by decide,
   c5_render_unresolved_no_error (NewPrompt ("\x7b\x7b.x\x7d\x7d")) []
     [Seg.var ("x")] (by decide)⟩

/-- Counterexample to C5 as stated: the template `(.x)` (a placeholder for
the unbound key `x`) rendered against the empty context succeeds with
`<no value>` substituted, instead of returning a rendering error. -/
theorem c5_counterexample :
    parseAux (NewPrompt ("\x7b\x7b.x\x7d\x7d")).Template.data
      = some [Seg.var ("x")] ∧
    (([] : List (String × String)).lookup ("x")) = none ∧
    (NewPrompt ("\x7b\x7b.x\x7d\x7d")).Render []
      = Except.ok ("<no value>") := by
  decide

/-- Claim C10: every run that completes successfully returns a history that
ends with the appended output-template user message; the model's final
structured answer is not appended to the history and is returned only in
decoded form as the result data. -/
theorem c10_success_history {T : Type} (a : Agent) (g : LLMGateway)
    (decode : String → Except GoError T) (input : String) (fuel : Nat)
    (res : AgentResult T)
    (h : (runAgent a g decode input fuel).out = RunOut.done (some res) none) :
    res.Data.isSome = true ∧
    ∃ op, outputPromptTemplate.Render [] = Except.ok op ∧
      res.Messages.getLast? = some (NewLLMMessage LLMMessageType.user op) := by
  simp only [runAgent] at h
  revert h
  cases hinit : createInitState a input with
  | error e => intro h; dsimp only at h; simp at h
  | ok msgs =>
    intro h
    dsimp only at h
    exact runAgentLoop_success a g decode fuel msgs [] res h

/-- Witness for C10 at the immediately-final stub scenario. -/
theorem c10_success_history_witness :
    ∃ res : AgentResult SumRes,
      (runAgent cAgent gwFinalOk decodeSum ("\x7b\x7d") 3).out
        = RunOut.done (some res) none ∧
      (res.Data.isSome = true ∧
       ∃ op, outputPromptTemplate.Render [] = Except.ok op ∧
         res.Messages.getLast? = some (NewLLMMessage LLMMessageType.user op)) := by
  refine ⟨((runAgent cAgent gwFinalOk decodeSum ("\x7b\x7d") 3).out.resultOf).getD
    ⟨none, []⟩, ?h1, ?h2⟩
  case h1 => decide
  case h2 =>
    exact c10_success_history cAgent gwFinalOk decodeSum ("\x7b\x7d") 3 _ (by decide)

/-! ### Middleware chain -/

/-- Modelled from the spec: the interceptor type of the middleware chain of
section 4.4.  The implementation (`WithMiddleware` and the chain
application inside `Run`) is not among the sources; only its tests and the
example invoke it.  An interceptor receives the conversation state and the
assistant message and returns a replacement message or an error. -/
def AgentMiddleware : Type :=
  List LLMMessage → LLMMessage → Except GoError LLMMessage

/-- Modelled from the spec: applying the middleware chain to one assistant
turn — interceptors run strictly in registration order, each receiving the
message produced by the previous one, stopping at the first error. -/
def applyMiddlewares : List AgentMiddleware → List LLMMessage → LLMMessage →
    Except GoError LLMMessage
  | [], _, m => Except.ok m
  | f :: rest, st, m =>
    match f st m with
    | Except.error e => Except.error e
    | Except.ok m2 => applyMiddlewares rest st m2

/-- Claim C8: the middleware chain is applied strictly in registration
order, each interceptor receiving the output of the previous one: the chain
splits at any point into "run the first part, then feed its output to the
second part", and in particular three middlewares registered as `A`, `B`,
`C` observe and transform the assistant message in exactly that order. -/
theorem c8_middleware_order :
    (∀ (xs ys : List AgentMiddleware) (st : List LLMMessage) (m : LLMMessage),
      applyMiddlewares (xs ++ ys) st m
        = match applyMiddlewares xs st m with
          | Except.error e => Except.error e
          | Except.ok m2 => applyMiddlewares ys st m2) ∧
    (∀ (A B C : AgentMiddleware) (st : List LLMMessage) (m : LLMMessage),
      applyMiddlewares [A, B, C] st m
        = match A st m with
          | Except.error e => Except.error e
          | Except.ok m1 =>
            match B st m1 with
            | Except.error e => Except.error e
            | Except.ok m2 => C st m2) := by
  constructor
  · intro xs
    induction xs with
    | nil => intro ys st m; rfl
    | cons f rest ih =>
      intro ys st m
      simp only [List.cons_append, applyMiddlewares]
      cases f st m with
      | error e => rfl
      | ok m2 => exact ih ys st m2
  · intro A B C st m
    simp only [applyMiddlewares]
    cases A st m with
    | error e => rfl
    | ok m1 =>
      dsimp only
      cases B st m1 with
      | error e => rfl
      | ok m2 =>
        dsimp only
        cases C st m2 with
        | error e => rfl
        | ok m3 => rfl

end GoAgent
